import Mathlib

/-!
Verification of the GHOST-wire conversation core against its specification.

The definitions below are a shallow embedding of the Python sources:
`src/core/state_machine.py`, `src/security/audit_logger.py`,
`src/extraction/patterns.py`, `src/brains/reflex_brain.py`,
`src/brains/router.py` and `src/security/constitutional_ai.py`.
Machine-level effects are made explicit: wall-clock timestamps become a
`now : Nat` parameter, mutable objects become explicit state passing, and
callbacks/exceptions become data (see the comments at each definition).
-/

namespace GhostWire

/-! ## core/state_machine.py -/

/-- The `State` enum of `core/state_machine.py`. -/
inductive State where
  | idle
  | initial_contact
  | trust_building
  | suspicion_arousal
  | extraction
  | termination
deriving DecidableEq, Repr

/-- `ConversationStateMachine.TRANSITIONS`: the fixed transition table.
The Python dict lookup `TRANSITIONS.get(state, [])` is total here. -/
def TRANSITIONS : State → List State
  | .idle => [.initial_contact]
  | .initial_contact => [.trust_building, .suspicion_arousal, .termination]
  | .trust_building => [.suspicion_arousal, .extraction, .termination]
  | .suspicion_arousal => [.trust_building, .extraction, .termination]
  | .extraction => [.extraction, .termination]
  | .termination => []

/-- `StateContext` dataclass.  `datetime` timestamps are modelled as `Nat`
ticks supplied by the caller; `metadata` and `extraction_data` dicts are
association lists (not used by any claim). -/
structure StateContext where
  conversation_id : String
  current_state : State
  previous_states : List State
  state_entry_time : Nat
  metadata : List (String × String)
  extraction_data : List (String × String)

/-- `StateContext.transition_to`. -/
def transition_to (ctx : StateContext) (new_state : State) (now : Nat) : StateContext :=
  { ctx with
    previous_states := ctx.previous_states ++ [ctx.current_state]
    current_state := new_state
    state_entry_time := now }

/-- An entry/exit hook callback.  A Python callable is modelled by an
identifier (so that invocation order is observable) together with whether
calling it raises an exception. -/
structure Hook where
  hid : Nat
  raises : Bool

/-- `ConversationStateMachine` object state.  The `_entry_hooks` /
`_exit_hooks` dicts of lists are total functions defaulting to `[]`
(matching `dict.get(state, [])` / `setdefault(state, [])`). -/
structure ConversationStateMachine where
  context : StateContext
  max_transitions : Nat
  transition_count : Nat
  entry_hooks : State → List Hook
  exit_hooks : State → List Hook

/-- `ConversationStateMachine.__init__` (fresh context in `idle`,
`transition_count = 0`, no hooks). -/
def initMachine (conversation_id : String) (max_transitions : Nat) : ConversationStateMachine :=
  { context :=
      { conversation_id := conversation_id
        current_state := .idle
        previous_states := []
        state_entry_time := 0
        metadata := []
        extraction_data := [] }
    max_transitions := max_transitions
    transition_count := 0
    entry_hooks := fun _ => []
    exit_hooks := fun _ => [] }

/-- `ConversationStateMachine.register_hook`. -/
def register_hook (m : ConversationStateMachine) (hook_type : String) (s : State)
    (callback : Hook) : ConversationStateMachine :=
  if hook_type = "entry" then
    { m with entry_hooks := fun t => if t = s then m.entry_hooks t ++ [callback] else m.entry_hooks t }
  else if hook_type = "exit" then
    { m with exit_hooks := fun t => if t = s then m.exit_hooks t ++ [callback] else m.exit_hooks t }
  else m

/-- `ConversationStateMachine.can_transition`. -/
def can_transition (m : ConversationStateMachine) (target_state : State) : Bool :=
  if m.transition_count ≥ m.max_transitions then
    decide (target_state = State.termination)
  else
    decide (target_state ∈ TRANSITIONS m.context.current_state)

/-- Run a list of hooks in order.  Each hook is invoked inside
`try ... except`: a raising hook is caught and logged, and the loop
continues.  Returns (ids invoked in order, ids whose call raised and was
caught/logged). -/
def invokeHooks : List Hook → List Nat × List Nat
  | [] => ([], [])
  | h :: t =>
    let r := invokeHooks t
    (h.hid :: r.1, if h.raises then h.hid :: r.2 else r.2)

/-- `ConversationStateMachine.transition`.  Returns the success flag, the
machine afterwards, and the trace of hook ids invoked (exit hooks of the
old state first, then entry hooks of the target, as in the source). -/
def transition (m : ConversationStateMachine) (target_state : State) (now : Nat) :
    Bool × ConversationStateMachine × List Nat :=
  if ¬ can_transition m target_state then
    (false, m, [])
  else
    let ex := invokeHooks (m.exit_hooks m.context.current_state)
    let ctx' := transition_to m.context target_state now
    let en := invokeHooks (m.entry_hooks target_state)
    (true,
     { m with context := ctx', transition_count := m.transition_count + 1 },
     ex.1 ++ en.1)

/-- `ConversationStateMachine.get_current_state`. -/
def get_current_state (m : ConversationStateMachine) : State :=
  m.context.current_state

/-- `ConversationStateMachine.should_extract`. -/
def should_extract (m : ConversationStateMachine) : Bool :=
  decide (m.context.current_state ∈ [State.suspicion_arousal, State.extraction])

/-- `ConversationStateMachine.is_terminal`. -/
def is_terminal (m : ConversationStateMachine) : Bool :=
  decide (m.context.current_state = State.termination)

theorem invokeHooks_fst (l : List Hook) : (invokeHooks l).1 = l.map Hook.hid := by
  induction l with
  | nil => rfl
  | cons h t ih => simp [invokeHooks, ih]

theorem transition_fst_eq (m : ConversationStateMachine) (t : State) (n : Nat) :
    (transition m t n).1 = can_transition m t := by
  unfold transition
  split <;> simp_all

theorem can_transition_true_iff (m : ConversationStateMachine) (t : State) :
    can_transition m t = true ↔
      (m.transition_count < m.max_transitions ∧ t ∈ TRANSITIONS m.context.current_state) ∨
      (m.max_transitions ≤ m.transition_count ∧ t = State.termination) := by
  unfold can_transition
  split <;> simp_all

theorem transition_of_reject (m : ConversationStateMachine) (t : State) (n : Nat)
    (h : can_transition m t = false) : transition m t n = (false, m, []) := by
  unfold transition
  simp [h]

/-- Claim C1 counterexample: once the transition ceiling is reached the code
accepts `termination` even though the claimed right-hand side
(`T ∈ TRANSITIONS[P]` and `count < max_transitions`) is false, so the
claimed iff fails on a reachable machine. -/
theorem c1_counterexample :
    let m := (transition (initMachine "c" 1) State.initial_contact 0).2.1
    (transition m State.termination 0).1 = true ∧
    ¬ (State.termination ∈ TRANSITIONS m.context.current_state ∧
       m.transition_count < m.max_transitions) := by
  decide

/-- Claim C1 (amended): `transition(T)` returns true iff either the ceiling
has not been reached and T is in the transition table row of the current
phase, or the ceiling has been reached and T is `termination`; whenever it
returns false the machine (phase and history included) is unchanged and no
hooks run.  (No exception can be raised: `transition` is a total
function.) -/
theorem c1_transition_characterization (m : ConversationStateMachine) (target : State) (now : Nat) :
    ((transition m target now).1 = true ↔
      ((m.transition_count < m.max_transitions ∧ target ∈ TRANSITIONS m.context.current_state) ∨
       (m.max_transitions ≤ m.transition_count ∧ target = State.termination))) ∧
    ((transition m target now).1 = false → transition m target now = (false, m, [])) := by
  refine ⟨?_, ?_⟩
  · rw [transition_fst_eq]
    exact can_transition_true_iff m target
  · intro hfalse
    rw [transition_fst_eq] at hfalse
    exact transition_of_reject m target now hfalse

/-- Claim C1 witness: a rejected transition leaves the machine unchanged at
a concrete input. -/
theorem c1_witness :
    transition (initMachine "c" 20) State.extraction 0 = (false, initMachine "c" 20, []) :=
  (c1_transition_characterization (initMachine "c" 20) State.extraction 0).2 (by decide)

/-- Claim C2 counterexample: a reachable machine whose phase is
`termination` (built with `max_transitions = 1`, so the ceiling is passed)
accepts `transition(termination)` and mutates its state, refuting the
unconditional absorbing claim. -/
theorem c2_counterexample :
    let m2 := (transition ((transition (initMachine "c" 1) State.initial_contact 0).2.1)
                State.termination 0).2.1
    m2.context.current_state = State.termination ∧
    (transition m2 State.termination 0).1 = true ∧
    (transition m2 State.termination 0).2.1.context.previous_states =
      [State.idle, State.initial_contact, State.termination] ∧
    m2.context.previous_states = [State.idle, State.initial_contact] := by
  decide

/-- Claim C2 (amended): from phase `termination`, every `transition` call
returns false (leaving the machine unchanged) as long as the transition
count is below the ceiling; once the count has reached the ceiling,
`transition(T)` from `termination` succeeds exactly for `T = termination`
(a self-loop) and still fails for every other target. -/
theorem c2_termination_absorbing (m : ConversationStateMachine) (target : State) (now : Nat)
    (hterm : m.context.current_state = State.termination) :
    (m.transition_count < m.max_transitions → transition m target now = (false, m, [])) ∧
    (m.max_transitions ≤ m.transition_count →
      ((transition m target now).1 = true ↔ target = State.termination)) := by
  refine ⟨?_, ?_⟩
  · intro hlt
    apply transition_of_reject
    unfold can_transition
    rw [hterm]
    simp [TRANSITIONS]
    omega
  · intro hge
    rw [transition_fst_eq, can_transition_true_iff]
    constructor
    · rintro (⟨hlt, _⟩ | ⟨_, ht⟩)
      · omega
      · exact ht
    · intro ht
      exact Or.inr ⟨hge, ht⟩

/-- Claim C2 witness: below the ceiling, a concrete machine in phase
`termination` rejects a transition attempt without mutation. -/
theorem c2_witness :
    transition
      { context := { conversation_id := "c", current_state := State.termination,
                     previous_states := [], state_entry_time := 0,
                     metadata := [], extraction_data := [] },
        max_transitions := 20, transition_count := 3,
        entry_hooks := fun _ => [], exit_hooks := fun _ => [] }
      State.trust_building 0 =
    (false,
      { context := { conversation_id := "c", current_state := State.termination,
                     previous_states := [], state_entry_time := 0,
                     metadata := [], extraction_data := [] },
        max_transitions := 20, transition_count := 3,
        entry_hooks := fun _ => [], exit_hooks := fun _ => [] },
      []) :=
  (c2_termination_absorbing _ State.trust_building 0 rfl).1 (by decide)

/-- Claim C3: once the transition count equals `max_transitions`, the only
target for which `transition` returns true is `termination` — this holds
for every machine state, hence in particular for phases whose table row
does not contain `termination` — and any other target is rejected without
mutating the state. -/
theorem c3_ceiling_forces_termination (m : ConversationStateMachine) (target : State) (now : Nat)
    (h : m.transition_count = m.max_transitions) :
    ((transition m target now).1 = true ↔ target = State.termination) ∧
    (target ≠ State.termination → transition m target now = (false, m, [])) := by
  have hge : m.max_transitions ≤ m.transition_count := le_of_eq h.symm
  refine ⟨?_, ?_⟩
  · rw [transition_fst_eq, can_transition_true_iff]
    constructor
    · rintro (⟨hlt, _⟩ | ⟨_, ht⟩)
      · omega
      · exact ht
    · intro ht
      exact Or.inr ⟨hge, ht⟩
  · intro hne
    apply transition_of_reject
    unfold can_transition
    have : m.transition_count ≥ m.max_transitions := hge
    simp [this, hne]

/-- Machine used by the C3 witness: phase `idle` (whose table row does not
contain `termination`) with the default ceiling of 20 reached. -/
def ceilingIdleMachine : ConversationStateMachine :=
  { context := { conversation_id := "c", current_state := State.idle,
                 previous_states := [], state_entry_time := 0,
                 metadata := [], extraction_data := [] },
    max_transitions := 20, transition_count := 20,
    entry_hooks := fun _ => [], exit_hooks := fun _ => [] }

/-- Claim C3 witness: at the ceiling, from `idle`, `termination` is
accepted and `initial_contact` (the only table-adjacent target) is
rejected without mutation. -/
theorem c3_witness :
    (transition ceilingIdleMachine State.termination 0).1 = true ∧
    transition ceilingIdleMachine State.initial_contact 0 = (false, ceilingIdleMachine, []) := by
  refine ⟨?_, ?_⟩
  · exact ((c3_ceiling_forces_termination ceilingIdleMachine State.termination 0 rfl).1).2 rfl
  · exact (c3_ceiling_forces_termination ceilingIdleMachine State.initial_contact 0 rfl).2
      (by decide)

/-- Claim C9: for every valid transition, `transition` returns true and the
phase advances regardless of which hooks raise (raising hooks are caught),
the hook trace is exactly the exit hooks of the old phase followed by the
entry hooks of the target, each list in registration order; and
`register_hook` appends to the end of the per-phase list, so hooks run in
registration order. -/
theorem c9_hooks_do_not_abort (m : ConversationStateMachine) (target : State) (now : Nat)
    (s : State) (hk : Hook) (hc : can_transition m target = true) :
    (transition m target now).1 = true ∧
    (transition m target now).2.1.context.current_state = target ∧
    (transition m target now).2.1.transition_count = m.transition_count + 1 ∧
    (transition m target now).2.2 =
      (m.exit_hooks m.context.current_state).map Hook.hid ++
      (m.entry_hooks target).map Hook.hid ∧
    (register_hook m "entry" s hk).entry_hooks s = m.entry_hooks s ++ [hk] ∧
    (register_hook m "exit" s hk).exit_hooks s = m.exit_hooks s ++ [hk] := by
  unfold transition
  simp only [hc]
  refine ⟨by simp, by simp [transition_to], by simp, ?_, ?_, ?_⟩
  · simp [invokeHooks_fst]
  · simp [register_hook]
  · simp [register_hook]

/-- Machine used by the C9 witness: one exit hook on `idle` and two entry
hooks on `initial_contact`, two of which raise. -/
def hookedMachine : ConversationStateMachine :=
  { context := { conversation_id := "c", current_state := State.idle,
                 previous_states := [], state_entry_time := 0,
                 metadata := [], extraction_data := [] },
    max_transitions := 20, transition_count := 0,
    entry_hooks := fun t => if t = State.initial_contact then [⟨1, true⟩, ⟨2, false⟩] else [],
    exit_hooks := fun t => if t = State.idle then [⟨0, true⟩] else [] }

/-- Claim C9 witness: with raising hooks installed, a concrete valid
transition still succeeds, advances the phase, and invokes all hooks in
order. -/
theorem c9_witness :
    (transition hookedMachine State.initial_contact 0).1 = true ∧
    (transition hookedMachine State.initial_contact 0).2.1.context.current_state =
      State.initial_contact ∧
    (transition hookedMachine State.initial_contact 0).2.1.transition_count = 1 ∧
    (transition hookedMachine State.initial_contact 0).2.2 =
      (hookedMachine.exit_hooks hookedMachine.context.current_state).map Hook.hid ++
      (hookedMachine.entry_hooks State.initial_contact).map Hook.hid ∧
    (register_hook hookedMachine "entry" State.idle ⟨7, false⟩).entry_hooks State.idle =
      hookedMachine.entry_hooks State.idle ++ [⟨7, false⟩] ∧
    (register_hook hookedMachine "exit" State.idle ⟨7, false⟩).exit_hooks State.idle =
      hookedMachine.exit_hooks State.idle ++ [⟨7, false⟩] :=
  c9_hooks_do_not_abort hookedMachine State.initial_contact 0 State.idle ⟨7, false⟩ (by decide)

/-! ## security/audit_logger.py -/

/-- SHA-256 digests, modelled symbolically as a perfect (collision-free)
hash: each of the ways the source feeds data into `hashlib.sha256` becomes
an injective constructor.  `entryNone`/`entrySome` stand for the digest of
the sorted-keys JSON serialization of the four entry fields (with
`previous_hash` absent resp. present — the two serializations are
distinct); `chain2` for the digest of `"{entry_hash}:{previous_chain_hash}"`;
`chain1` for the digest of the bare entry hash (first entry of a chain). -/
inductive HashV where
  | entryNone (timestamp event_type data : String)
  | entrySome (timestamp event_type data : String) (previous : HashV)
  | chain2 (entry_hash prev_chain : HashV)
  | chain1 (entry_hash : HashV)
deriving DecidableEq, Repr

/-- The entry hash of `log_event`: sha256 over the sorted-keys JSON dump of
`timestamp`, `event_type`, `data` and `previous_hash`. -/
def entryHash (timestamp event_type data : String) : Option HashV → HashV
  | none => .entryNone timestamp event_type data
  | some p => .entrySome timestamp event_type data p

/-- The chain hash of `log_event`: sha256 of `"{entry_hash}:{chain_hash}"`
when a previous chain hash exists (a hex digest string is always nonempty,
so Python truthiness is exactly `is not None`), else sha256 of the bare
entry hash. -/
def chainOf (prev : Option HashV) (eh : HashV) : HashV :=
  match prev with
  | some p => .chain2 eh p
  | none => .chain1 eh

/-- One line of the audit log file (newline-delimited JSON in the source). -/
structure AuditEntry where
  timestamp : String
  event_type : String
  data : String
  previous_hash : Option HashV
  entry_hash : HashV
  chain_hash : HashV
deriving DecidableEq, Repr

/-- `AuditLogger` object state: the carried chain hash and the lines of the
current log file. -/
structure AuditLogger where
  chain_hash : Option HashV
  log : List AuditEntry

/-- The entry `log_event` writes when the carried chain hash is `prev`. -/
def mkEntry (prev : Option HashV) (timestamp event_type data : String) : AuditEntry :=
  { timestamp := timestamp
    event_type := event_type
    data := data
    previous_hash := prev
    entry_hash := entryHash timestamp event_type data prev
    chain_hash := chainOf prev (entryHash timestamp event_type data prev) }

/-- `AuditLogger.log_event`: append one chained entry, advance the carried
chain hash, return the entry hash. -/
def log_event (st : AuditLogger) (timestamp event_type data : String) : HashV × AuditLogger :=
  let e := mkEntry st.chain_hash timestamp event_type data
  (e.entry_hash, { chain_hash := some e.chain_hash, log := st.log ++ [e] })

/-- Fold `log_event` over a list of `(timestamp, event_type, data)` events. -/
def appendEvents (st : AuditLogger) : List (String × String × String) → AuditLogger
  | [] => st
  | (t, et, d) :: rest => appendEvents (log_event st t et d).2 rest

/-- The loop body of `AuditLogger.verify_chain`: check the log lines
sequentially, starting at line number `n` with running `previous_hash`
local `prev` (initially `None` in the source).  Returns the line number of
the first failed check, `none` if every line passes.  (`verify_chain`
returns a bool and logs the failing line; the JSON-decode failure branch
cannot arise in this typed model.)  Note the source recomputes and checks
only the linkage and the entry hash — the stored `chain_hash` is carried
forward, never recomputed. -/
def verifyFrom : Option HashV → Nat → List AuditEntry → Option Nat
  | _, _, [] => none
  | prev, n, e :: rest =>
    if prev ≠ none ∧ e.previous_hash ≠ prev then some n
    else if entryHash e.timestamp e.event_type e.data e.previous_hash ≠ e.entry_hash then some n
    else verifyFrom (some e.chain_hash) (n + 1) rest

/-- `AuditLogger.verify_chain` on an explicit list of log lines. -/
def verify_chain (log : List AuditEntry) : Bool :=
  (verifyFrom none 1 log).isNone

/-- The chain state carried after reading a list of entries. -/
def carried : Option HashV → List AuditEntry → Option HashV
  | p, [] => p
  | _, e :: rest => carried (some e.chain_hash) rest

/-- Exactly the logs a sequence of `log_event` calls produces from carried
chain state `prev`: each line is `mkEntry` of the running chain hash, which
then advances to that line's `chain_hash`. -/
def chainedFrom : Option HashV → List AuditEntry → Bool
  | _, [] => true
  | prev, e :: rest =>
    decide (e = mkEntry prev e.timestamp e.event_type e.data) &&
    chainedFrom (some e.chain_hash) rest

/-- `e'` is `e` with exactly one field altered; altering `chain_hash` is
additionally tagged with whether the entry is not the last one. -/
def AlteredOneField (e e' : AuditEntry) (chainNotLast : Prop) : Prop :=
  (∃ x, x ≠ e.timestamp ∧ e' = { e with timestamp := x }) ∨
  (∃ x, x ≠ e.event_type ∧ e' = { e with event_type := x }) ∨
  (∃ x, x ≠ e.data ∧ e' = { e with data := x }) ∨
  (∃ x, x ≠ e.previous_hash ∧ e' = { e with previous_hash := x }) ∨
  (∃ x, x ≠ e.entry_hash ∧ e' = { e with entry_hash := x }) ∨
  (∃ x, x ≠ e.chain_hash ∧ e' = { e with chain_hash := x } ∧ chainNotLast)

theorem altered_mono {e e' : AuditEntry} {P Q : Prop} (hpq : P → Q) :
    AlteredOneField e e' P → AlteredOneField e e' Q := by
  rintro (h | h | h | h | h | ⟨x, hx, he, hp⟩)
  exacts [.inl h, .inr (.inl h), .inr (.inr (.inl h)),
    .inr (.inr (.inr (.inl h))),
    .inr (.inr (.inr (.inr (.inl h)))),
    .inr (.inr (.inr (.inr (.inr ⟨x, hx, he, hpq hp⟩))))]

theorem entryHash_inj {t et d t' et' d' : String} {p p' : Option HashV}
    (h : entryHash t et d p = entryHash t' et' d' p') :
    t = t' ∧ et = et' ∧ d = d' ∧ p = p' := by
  cases p <;> cases p' <;> simp [entryHash] at h <;> simp_all

theorem carried_append (l l' : List AuditEntry) (p : Option HashV) :
    carried p (l ++ l') = carried (carried p l) l' := by
  induction l generalizing p with
  | nil => rfl
  | cons e rest ih => simp [carried, ih]

theorem chainedFrom_snoc (l : List AuditEntry) (p : Option HashV) (t et d : String)
    (h : chainedFrom p l = true) :
    chainedFrom p (l ++ [mkEntry (carried p l) t et d]) = true := by
  induction l generalizing p with
  | nil => simp [chainedFrom, carried, mkEntry]
  | cons e rest ih =>
    rw [chainedFrom, Bool.and_eq_true] at h
    rw [List.cons_append, chainedFrom, Bool.and_eq_true]
    exact ⟨h.1, ih (some e.chain_hash) h.2⟩

theorem appendEvents_chained (events : List (String × String × String))
    (c0 : Option HashV) (st : AuditLogger)
    (h1 : chainedFrom c0 st.log = true) (h2 : carried c0 st.log = st.chain_hash) :
    chainedFrom c0 (appendEvents st events).log = true ∧
    carried c0 (appendEvents st events).log = (appendEvents st events).chain_hash := by
  induction events generalizing st with
  | nil => exact ⟨h1, h2⟩
  | cons ev rest ih =>
    obtain ⟨t, et, d⟩ := ev
    rw [appendEvents]
    apply ih
    · show chainedFrom c0 (st.log ++ [mkEntry st.chain_hash t et d]) = true
      rw [← h2]
      exact chainedFrom_snoc st.log c0 t et d h1
    · show carried c0 (st.log ++ [mkEntry st.chain_hash t et d]) =
        some (mkEntry st.chain_hash t et d).chain_hash
      rw [carried_append]
      rfl

theorem verifyFrom_of_chained (l : List AuditEntry) (p q : Option HashV) (n : Nat)
    (hc : chainedFrom p l = true) (hq : q = none ∨ q = p) :
    verifyFrom q n l = none := by
  induction l generalizing p q n with
  | nil => rfl
  | cons e rest ih =>
    rw [chainedFrom, Bool.and_eq_true] at hc
    obtain ⟨hegood, hrest⟩ := hc
    obtain ⟨ts, ev, dt, pv, eh, ch⟩ := e
    have heq := of_decide_eq_true hegood
    simp only [mkEntry, AuditEntry.mk.injEq, true_and] at heq
    obtain ⟨hpv, heh, hch⟩ := heq
    subst hpv heh hch
    rw [verifyFrom, if_neg, if_neg]
    · exact ih _ _ _ hrest (Or.inr rfl)
    · simp
    · rcases hq with hq | hq <;> subst hq <;> simp

theorem verifyFrom_tamper (e' : AuditEntry) :
    ∀ (l : List AuditEntry) (p q : Option HashV) (n k : Nat) (hk : k < l.length),
      chainedFrom p l = true → (q = none ∨ q = p) →
      AlteredOneField (l.get ⟨k, hk⟩) e' (k + 1 < l.length) →
      ∃ j, verifyFrom q n (l.set k e') = some j ∧ n + k ≤ j := by
  intro l
  induction l with
  | nil =>
    intro p q n k hk
    exact absurd hk (by simp)
  | cons e rest ih =>
    intro p q n k hk hc hq halt
    rw [chainedFrom, Bool.and_eq_true] at hc
    obtain ⟨hegood, hrest⟩ := hc
    obtain ⟨ts, ev, dt, pv, eh, ch⟩ := e
    have heq := of_decide_eq_true hegood
    simp only [mkEntry, AuditEntry.mk.injEq, true_and] at heq
    obtain ⟨hpv, heh, hch⟩ := heq
    subst hpv heh hch
    cases k with
    | zero =>
      show ∃ j, verifyFrom q n (e' :: rest) = some j ∧ n + 0 ≤ j
      rcases halt with ⟨x, hx, he'⟩ | ⟨x, hx, he'⟩ | ⟨x, hx, he'⟩ | ⟨x, hx, he'⟩ |
        ⟨x, hx, he'⟩ | ⟨x, hx, he', hlast⟩
      · subst he'
        refine ⟨n, ?_, by omega⟩
        simp only [verifyFrom]
        split_ifs with h1 h2
        · rfl
        · rfl
        · exact absurd (entryHash_inj (not_ne_iff.mp h2)).1 hx
      · subst he'
        refine ⟨n, ?_, by omega⟩
        simp only [verifyFrom]
        split_ifs with h1 h2
        · rfl
        · rfl
        · exact absurd (entryHash_inj (not_ne_iff.mp h2)).2.1 hx
      · subst he'
        refine ⟨n, ?_, by omega⟩
        simp only [verifyFrom]
        split_ifs with h1 h2
        · rfl
        · rfl
        · exact absurd (entryHash_inj (not_ne_iff.mp h2)).2.2.1 hx
      · subst he'
        refine ⟨n, ?_, by omega⟩
        simp only [verifyFrom]
        split_ifs with h1 h2
        · rfl
        · rfl
        · exact absurd (entryHash_inj (not_ne_iff.mp h2)).2.2.2 hx
      · subst he'
        refine ⟨n, ?_, by omega⟩
        simp only [verifyFrom]
        split_ifs with h1 h2
        · rfl
        · rfl
        · exact absurd (not_ne_iff.mp h2).symm hx
      · subst he'
        have hlen : 0 < rest.length := by
          simpa using hlast
        obtain ⟨r, rest', rfl⟩ : ∃ r rest', rest = r :: rest' := by
          cases rest with
          | nil => simp at hlen
          | cons r t => exact ⟨r, t, rfl⟩
        rw [chainedFrom, Bool.and_eq_true] at hrest
        obtain ⟨hrgood, _⟩ := hrest
        have hr := of_decide_eq_true hrgood
        refine ⟨n + 1, ?_, by omega⟩
        simp only [verifyFrom]
        rw [if_neg, if_neg]
        · rw [if_pos]
          refine ⟨by simp, ?_⟩
          have hrp : r.previous_hash = some (chainOf pv (entryHash ts ev dt pv)) :=
            congrArg AuditEntry.previous_hash hr
          rw [hrp]
          simp
          exact fun hcontra => hx hcontra.symm
        · simp
        · rcases hq with hq | hq <;> subst hq <;> simp
    | succ k' =>
      have hk' : k' < rest.length := Nat.lt_of_succ_lt_succ hk
      have halt' : AlteredOneField (rest.get ⟨k', hk'⟩) e' (k' + 1 < rest.length) := by
        refine altered_mono (fun h => ?_) halt
        simpa using Nat.lt_of_succ_lt_succ h
      obtain ⟨j, hj, hjge⟩ := ih _ (some (chainOf pv (entryHash ts ev dt pv))) (n + 1) k' hk'
        hrest (Or.inr rfl) halt'
      refine ⟨j, ?_, by omega⟩
      show verifyFrom q n
        ({ timestamp := ts, event_type := ev, data := dt, previous_hash := pv,
           entry_hash := entryHash ts ev dt pv,
           chain_hash := chainOf pv (entryHash ts ev dt pv) } :: rest.set k' e') = some j
      rw [verifyFrom, if_neg, if_neg]
      · exact hj
      · simp
      · rcases hq with hq | hq <;> subst hq <;> simp

/-- Claim C4 counterexample: `verify_chain` never recomputes the stored
`chain_hash`, so altering the `chain_hash` field of the final entry of a
genuine log (here the one-entry log written by `log_event`) goes
undetected: the first conjunct shows the genuine log, the second shows
that the log with only that field changed still verifies as `true`. -/
theorem c4_counterexample :
    (appendEvents { chain_hash := none, log := [] } [("t1", "evt", "d1")]).log =
      [{ timestamp := "t1", event_type := "evt", data := "d1",
         previous_hash := none,
         entry_hash := HashV.entryNone "t1" "evt" "d1",
         chain_hash := HashV.chain1 (HashV.entryNone "t1" "evt" "d1") }] ∧
    verify_chain
      [{ timestamp := "t1", event_type := "evt", data := "d1",
         previous_hash := none,
         entry_hash := HashV.entryNone "t1" "evt" "d1",
         chain_hash := HashV.chain1 (HashV.chain1 (HashV.entryNone "t1" "evt" "d1")) }] = true := by
  decide

/-- Claim C4 (amended): on a log produced solely by `log_event`,
`verify_chain` returns true; if a single field of entry `k` (0-based, line
`k+1`) is altered — any of the first five fields of any entry, or the
`chain_hash` of a non-final entry — verification fails and the first
detected failure position is at line `k+1` or later, never earlier.
(Altering the `chain_hash` of the final entry is not detected, see the
counterexample.) -/
theorem c4_audit_chain_integrity (c0 : Option HashV)
    (events : List (String × String × String)) :
    verify_chain (appendEvents { chain_hash := c0, log := [] } events).log = true ∧
    ∀ (k : Nat) (hk : k < (appendEvents { chain_hash := c0, log := [] } events).log.length)
      (e' : AuditEntry),
      AlteredOneField ((appendEvents { chain_hash := c0, log := [] } events).log.get ⟨k, hk⟩) e'
        (k + 1 < (appendEvents { chain_hash := c0, log := [] } events).log.length) →
      verify_chain ((appendEvents { chain_hash := c0, log := [] } events).log.set k e') = false ∧
      ∃ j, verifyFrom none 1
          ((appendEvents { chain_hash := c0, log := [] } events).log.set k e') = some j ∧
        k + 1 ≤ j := by
  have hch := appendEvents_chained events c0 { chain_hash := c0, log := [] } rfl rfl
  constructor
  · unfold verify_chain
    rw [verifyFrom_of_chained _ c0 none 1 hch.1 (Or.inl rfl)]
    rfl
  · intro k hk e' halt
    obtain ⟨j, hj, hjge⟩ := verifyFrom_tamper e' _ c0 none 1 k hk hch.1 (Or.inl rfl) halt
    refine ⟨?_, ⟨j, hj, by omega⟩⟩
    unfold verify_chain
    rw [hj]
    rfl

/-- Claim C4 witness: altering the `data` field of the first entry of a
concrete two-entry log makes verification fail at line 1 or later. -/
theorem c4_witness :
    verify_chain ((appendEvents { chain_hash := none, log := [] }
        [("t1", "e1", "d1"), ("t2", "e2", "d2")]).log.set 0
        { mkEntry none "t1" "e1" "d1" with data := "dX" }) = false ∧
    ∃ j, verifyFrom none 1 ((appendEvents { chain_hash := none, log := [] }
        [("t1", "e1", "d1"), ("t2", "e2", "d2")]).log.set 0
        { mkEntry none "t1" "e1" "d1" with data := "dX" }) = some j ∧ 0 + 1 ≤ j :=
  (c4_audit_chain_integrity none [("t1", "e1", "d1"), ("t2", "e2", "d2")]).2 0 (by decide) _
    (Or.inr (Or.inr (Or.inl ⟨"dX", by decide, by decide⟩)))

/-! ## A small backtracking regex engine

The extraction and reflex patterns use only a subset of Python `re`:
literals, character classes, ordered alternation, optional groups, greedy
(possibly unbounded) class repetition, and word boundaries.  The engine
below implements Python's strategy on that subset: leftmost match,
alternatives tried left to right, greedy repetition with backtracking. -/

/-- Regular expressions over the pattern subset the sources use.
Character classes are predicates; repetition (`repC p lo hi`) repeats a
single-character class, which covers every quantifier in the sources. -/
inductive RE where
  | eps : RE
  | cls : (Char → Bool) → RE
  | lit : List Char → RE
  | seq : RE → RE → RE
  | alt : RE → RE → RE
  | repC : (Char → Bool) → Nat → Option Nat → RE
  | wordB : RE

/-- Concatenation of a list of regexes. -/
def rcat (l : List RE) : RE := l.foldr RE.seq RE.eps

/-- `r?` — optional, preferring presence (greedy). -/
def ropt (a : RE) : RE := RE.alt a RE.eps

/-- Python `\w` (the sources only deal in ASCII). -/
def isWordChar (c : Char) : Bool := c.isAlphanum || c = '_'

/-- Python `\b`: a word/non-word boundary between the previous character
(`none` at the start of the subject) and the rest of the input. -/
def atBoundary (prev : Option Char) (s : List Char) : Bool :=
  let l := match prev with
    | some c => isWordChar c
    | none => false
  let r := match s with
    | c :: _ => isWordChar c
    | [] => false
  l != r

/-- Match a literal character sequence. -/
def matchLit (K : Option Char → List Char → Option (List Char)) :
    List Char → Option Char → List Char → Option (List Char)
  | [], prev, s => K prev s
  | _ :: _, _, [] => none
  | a :: l, _, c :: t => if c = a then matchLit K l (some c) t else none

/-- Consume exactly `n` characters of class `p`, then continue. -/
def tryCount (p : Char → Bool) (K : Option Char → List Char → Option (List Char)) :
    Nat → Option Char → List Char → Option (List Char)
  | 0, prev, s => K prev s
  | n + 1, _, c :: t => if p c then tryCount p K n (some c) t else none
  | _ + 1, _, [] => none

/-- Greedy class repetition: try the count `n` first, then backtrack
downwards, stopping below `lo`. -/
def repTry (p : Char → Bool) (lo : Nat) (K : Option Char → List Char → Option (List Char))
    (prev : Option Char) (s : List Char) : Nat → Option (List Char)
  | 0 => if lo = 0 then tryCount p K 0 prev s else none
  | n + 1 =>
    if n + 1 < lo then none
    else
      match tryCount p K (n + 1) prev s with
      | some r => some r
      | none => repTry p lo K prev s n

/-- The backtracking matcher in continuation-passing style.  The
continuation receives the previous character (for `\b`) and the remaining
input; the overall result is the remaining input after the first
(in Python's deterministic backtracking order) successful match. -/
def mrun : RE → Option Char → List Char → (Option Char → List Char → Option (List Char)) →
    Option (List Char)
  | .eps, prev, s, K => K prev s
  | .cls p, _, s, K =>
    match s with
    | [] => none
    | c :: t => if p c then K (some c) t else none
  | .lit l, prev, s, K => matchLit K l prev s
  | .seq a b, prev, s, K => mrun a prev s (fun p' s' => mrun b p' s' K)
  | .alt a b, prev, s, K =>
    match mrun a prev s K with
    | some r => some r
    | none => mrun b prev s K
  | .repC p lo hi, prev, s, K => repTry p lo K prev s (min (hi.getD s.length) s.length)
  | .wordB, prev, s, K => if atBoundary prev s then K prev s else none

/-- Try to match `re` at the current position; on success return the
matched characters and the rest of the input. -/
def matchHere (re : RE) (prev : Option Char) (s : List Char) :
    Option (List Char × List Char) :=
  match mrun re prev s (fun _ rest => some rest) with
  | some rest => some (s.take (s.length - rest.length), rest)
  | none => none

/-- `pattern.findall(text)` semantics: leftmost non-overlapping matches,
scanning left to right; after an empty match, advance one character. -/
def findallAux (re : RE) : Nat → Option Char → List Char → List (List Char)
  | 0, _, _ => []
  | fuel + 1, prev, s =>
    match matchHere re prev s with
    | some (m, rest) =>
      match m with
      | [] =>
        match s with
        | [] => [[]]
        | c :: t => [] :: findallAux re fuel (some c) t
      | _ :: _ =>
        m :: findallAux re fuel (match m.getLast? with
          | some c => some c
          | none => prev) rest
    | none =>
      match s with
      | [] => []
      | c :: t => findallAux re fuel (some c) t

/-- `pattern.findall(text)` (all patterns in the sources are group-free, so
`findall` returns full matches). -/
def findall (re : RE) (s : String) : List String :=
  (findallAux re (s.length + 1) none s.data).map List.asString

/-- `pattern.search(text)`: the text of the leftmost match, if any. -/
def research (re : RE) : Option Char → List Char → Option (List Char)
  | prev, [] =>
    match matchHere re prev [] with
    | some (m, _) => some m
    | none => none
  | prev, c :: t =>
    match matchHere re prev (c :: t) with
    | some (m, _) => some m
    | none => research re (some c) t

/-- Bool version of `pattern.search(text) is not None` on a string. -/
def hasMatch (re : RE) (s : String) : Bool :=
  (research re none s.data).isSome

/-! ## extraction/patterns.py -/

/-- `[ -]` (space or hyphen; the trailing hyphen in the class is literal). -/
def sepChar (c : Char) : Bool := c = ' ' || c = '-'

/-- `[a-zA-Z0-9._%+-]` (email local part). -/
def emailLocalChar (c : Char) : Bool := c.isAlpha || c.isDigit || ".\x25+-_".data.contains c

/-- `[a-zA-Z0-9.-]` (email domain). -/
def emailDomChar (c : Char) : Bool := c.isAlpha || c.isDigit || c = '.' || c = '-'

/-- `[a-zA-Z0-9._-]` (UPI local part). -/
def upiLocalChar (c : Char) : Bool := c.isAlpha || c.isDigit || c = '.' || c = '_' || c = '-'

/-- `[A-Z]`. -/
def upperChar (c : Char) : Bool := 'A' ≤ c && c ≤ 'Z'

/-- `[A-Z0-9]`. -/
def upperOrDigit (c : Char) : Bool := upperChar c || c.isDigit

/-- `[a-km-zA-HJ-NP-Z1-9]` (base58). -/
def btcChar (c : Char) : Bool :=
  (c.isLower && c ≠ 'l') || (c.isUpper && c ≠ 'I' && c ≠ 'O') || ('1' ≤ c && c ≤ '9')

/-- `[a-z0-9]` (bech32 body). -/
def bech32Char (c : Char) : Bool := c.isLower || c.isDigit

/-- `[a-fA-F0-9]`. -/
def hexChar (c : Char) : Bool :=
  c.isDigit || ('a' ≤ c && c ≤ 'f') || ('A' ≤ c && c ≤ 'F')

/-- `[^\s<>"{}|\\^`\[\]]` (URL body; braces written as hex escapes). -/
def urlChar (c : Char) : Bool :=
  !(c.isWhitespace || "<>\"\x7b\x7d|\\^`[]".data.contains c)

/-- `(?:\+91|0)?[ -]?[6-9]\d{9}`. -/
def phone_india_re : RE :=
  rcat [ropt (.alt (.lit "+91".data) (.lit "0".data)), ropt (.cls sepChar),
        .cls (fun c => '6' ≤ c && c ≤ '9'), .repC Char.isDigit 9 (some 9)]

/-- `\+\d{1,3}[ -]?\d{6,12}`. -/
def phone_international_re : RE :=
  rcat [.lit "+".data, .repC Char.isDigit 1 (some 3), ropt (.cls sepChar),
        .repC Char.isDigit 6 (some 12)]

/-- `[a-zA-Z0-9._%+-]+@[a-zA-Z0-9.-]+\.[a-zA-Z]{2,}`. -/
def email_re : RE :=
  rcat [.repC emailLocalChar 1 none, .lit "@".data, .repC emailDomChar 1 none,
        .lit ".".data, .repC Char.isAlpha 2 none]

/-- `[a-zA-Z0-9._-]+@[a-zA-Z]{3,}`. -/
def upi_id_re : RE :=
  rcat [.repC upiLocalChar 1 none, .lit "@".data, .repC Char.isAlpha 3 none]

/-- `\b\d{9,18}\b`. -/
def bank_account_re : RE :=
  rcat [.wordB, .repC Char.isDigit 9 (some 18), .wordB]

/-- `[A-Z]{4}0[A-Z0-9]{6}`. -/
def ifsc_code_re : RE :=
  rcat [.repC upperChar 4 (some 4), .lit "0".data, .repC upperOrDigit 6 (some 6)]

/-- `\b[13][a-km-zA-HJ-NP-Z1-9]{25,34}\b|\bbc1[a-z0-9]{39,59}\b`. -/
def crypto_btc_re : RE :=
  .alt (rcat [.wordB, .cls (fun c => c = '1' || c = '3'), .repC btcChar 25 (some 34), .wordB])
       (rcat [.wordB, .lit "bc1".data, .repC bech32Char 39 (some 59), .wordB])

/-- `\b0x[a-fA-F0-9]{40}\b`. -/
def crypto_eth_re : RE :=
  rcat [.wordB, .lit "0x".data, .repC hexChar 40 (some 40), .wordB]

/-- `https?://[^\s<>"{}|\\^`\[\]]+`. -/
def url_re : RE :=
  rcat [.lit "http".data, ropt (.lit "s".data), .lit "://".data, .repC urlChar 1 none]

/-- `\b(?:\d{1,3}\.){3}\d{1,3}\b` (the counted group expanded). -/
def ip_address_re : RE :=
  rcat [.wordB, .repC Char.isDigit 1 (some 3), .lit ".".data,
        .repC Char.isDigit 1 (some 3), .lit ".".data,
        .repC Char.isDigit 1 (some 3), .lit ".".data,
        .repC Char.isDigit 1 (some 3), .wordB]

/-- One entry of `ExtractionEngine.PATTERNS` / `compiled_patterns`. -/
structure PatternSpec where
  pname : String
  ptype : String
  confidence : Rat
  regex : RE

/-- `ExtractionEngine.PATTERNS` in source (dict insertion) order. -/
def PATTERNS : List PatternSpec :=
  [⟨"phone_india", "phone", mkRat 9 10, phone_india_re⟩,
   ⟨"phone_international", "phone", mkRat 8 10, phone_international_re⟩,
   ⟨"email", "email", mkRat 95 100, email_re⟩,
   ⟨"upi_id", "upi", mkRat 85 100, upi_id_re⟩,
   ⟨"bank_account", "bank_account", mkRat 6 10, bank_account_re⟩,
   ⟨"ifsc_code", "ifsc", mkRat 95 100, ifsc_code_re⟩,
   ⟨"crypto_btc", "crypto_btc", mkRat 95 100, crypto_btc_re⟩,
   ⟨"crypto_eth", "crypto_eth", mkRat 95 100, crypto_eth_re⟩,
   ⟨"url", "url", mkRat 9 10, url_re⟩,
   ⟨"ip_address", "ip", mkRat 8 10, ip_address_re⟩]

/-- `ExtractedIOC` dataclass (`first_seen` is a caller-supplied tick). -/
structure ExtractedIOC where
  ioc_type : String
  value : String
  confidence : Rat
  context : String
  first_seen : Nat
  source_conversation : String
deriving DecidableEq, Repr

/-- Python `str.strip()`: drop whitespace at both ends.  (Implemented on
the character list so that proofs can evaluate it; `String.trim` has the
same behaviour but does not reduce in the kernel.) -/
def pyStrip (s : String) : String :=
  ⟨((s.data.dropWhile Char.isWhitespace).reverse.dropWhile Char.isWhitespace).reverse⟩

/-- Python `str.lower()` (ASCII, which is all the sources deal in). -/
def pyLower (s : String) : String :=
  ⟨s.data.map Char.toLower⟩

/-- Python slicing `s[:n]`. -/
def pyTake (s : String) (n : Nat) : String :=
  ⟨s.data.take n⟩

/-- Find the first `:` and split around it. -/
def splitFirstColon : List Char → Option (List Char × List Char)
  | [] => none
  | x :: t =>
    if x = ':' then some ([], t)
    else
      match splitFirstColon t with
      | some (a, b) => some (x :: a, b)
      | none => none

/-- A wellformed URL scheme: a letter followed by letters, digits, `+`,
`-`, `.`. -/
def schemeOk : List Char → Bool
  | [] => false
  | c :: t => c.isAlpha && t.all (fun x => x.isAlpha || x.isDigit || x = '+' || x = '-' || x = '.')

/-- The `scheme` and `netloc` fields of `urllib.parse.urlparse`, for the
shapes `_clean_ioc` can receive: the scheme is the (lower-cased) part
before `:` when wellformed, and the netloc is the part after `//` up to
the next `/`, `?` or `#`. -/
def urlparse_scheme_netloc (v : List Char) : List Char × List Char :=
  match splitFirstColon v with
  | some (before, after) =>
    if schemeOk before then
      if after.take 2 = ['/', '/'] then
        (before.map Char.toLower,
         (after.drop 2).takeWhile (fun c => c ≠ '/' && c ≠ '?' && c ≠ '#'))
      else (before.map Char.toLower, [])
    else if v.take 2 = ['/', '/'] then
      ([], (v.drop 2).takeWhile (fun c => c ≠ '/' && c ≠ '?' && c ≠ '#'))
    else ([], [])
  | none =>
    if v.take 2 = ['/', '/'] then
      ([], (v.drop 2).takeWhile (fun c => c ≠ '/' && c ≠ '?' && c ≠ '#'))
    else ([], [])

/-- `ExtractionEngine._clean_ioc`. -/
def _clean_ioc (ioc_type : String) (value : String) : Option String :=
  let value := pyStrip value
  if ioc_type = "phone" then
    let digits := (value.data.filter Char.isDigit).asString
    if digits.length = 10 then some ("+91" ++ digits)
    else if digits.length = 12 ∧ "91".data.isPrefixOf digits.data then some ("+" ++ digits)
    else none
  else if ioc_type = "upi" then
    if value.data.contains '@' ∧ value.length > 5 then some (pyLower value) else none
  else if ioc_type = "url" then
    let p := urlparse_scheme_netloc value.data
    if p.1 ≠ [] ∧ p.2 ≠ [] then some (pyLower value) else none
  else if ioc_type = "crypto_btc" ∨ ioc_type = "crypto_eth" then some value
  else some value

/-- The body of the inner loop of `_extract_iocs` for one raw regex match:
dedup on the md5 of the lower-cased raw match — md5 is modelled as a
perfect hash, so the stored key is the lower-cased raw match itself — then
clean/validate and build the `ExtractedIOC`.  The `isinstance(match,
tuple)` branch cannot arise: no compiled pattern has capturing groups. -/
def processMatch (seen : List String) (ptype : String) (confidence : Rat)
    (context conversation_id : String) (now : Nat) (m : String) :
    Option ExtractedIOC × List String :=
  let match_str := pyStrip m
  let match_hash := pyLower match_str
  if match_hash ∈ seen then (none, seen)
  else
    let seen' := seen ++ [match_hash]
    match _clean_ioc ptype match_str with
    | none => (none, seen')
    | some cleaned =>
      (some { ioc_type := ptype, value := cleaned, confidence := confidence,
              context := pyTake context 200, first_seen := now,
              source_conversation := conversation_id }, seen')

/-- The inner `for match in matches` loop of `_extract_iocs`. -/
def runMatches (ptype : String) (confidence : Rat) (context conversation_id : String)
    (now : Nat) : List String → List String → List ExtractedIOC × List String
  | [], seen => ([], seen)
  | m :: ms, seen =>
    let r := processMatch seen ptype confidence context conversation_id now m
    let rest := runMatches ptype confidence context conversation_id now ms r.2
    (r.1.toList ++ rest.1, rest.2)

/-- The outer `for pattern_name, config in ...` loop of `_extract_iocs`. -/
def runPatterns (context conversation_id : String) (now : Nat) (text : String) :
    List PatternSpec → List String → List ExtractedIOC × List String
  | [], seen => ([], seen)
  | p :: ps, seen =>
    let r := runMatches p.ptype p.confidence context conversation_id now
      (findall p.regex text) seen
    let rest := runPatterns context conversation_id now text ps r.2
    (r.1 ++ rest.1, rest.2)

/-- `ExtractionEngine._extract_iocs`; `seen` is the engine's process-wide
`extracted_iocs` dedup set (a list of keys; only membership matters). -/
def _extract_iocs (seen : List String) (text context conversation_id : String) (now : Nat) :
    List ExtractedIOC × List String :=
  runPatterns context conversation_id now text PATTERNS seen

theorem processMatch_key_mem (seen : List String) (ptype : String) (conf : Rat)
    (ctx cid : String) (now : Nat) (m : String) :
    pyLower (pyStrip m) ∈ (processMatch seen ptype conf ctx cid now m).2 := by
  unfold processMatch
  by_cases h : pyLower (pyStrip m) ∈ seen
  · simp [h]
  · simp only [if_neg h]
    cases hc : _clean_ioc ptype (pyStrip m) <;> simp [hc]

theorem processMatch_mono (seen : List String) (ptype : String) (conf : Rat)
    (ctx cid : String) (now : Nat) (m : String) :
    seen ⊆ (processMatch seen ptype conf ctx cid now m).2 := by
  unfold processMatch
  by_cases h : pyLower (pyStrip m) ∈ seen
  · simp [h]
  · simp only [if_neg h]
    cases hc : _clean_ioc ptype (pyStrip m) <;> simp [hc]

theorem processMatch_skip (seen : List String) (ptype : String) (conf : Rat)
    (ctx cid : String) (now : Nat) (m : String) (h : pyLower (pyStrip m) ∈ seen) :
    processMatch seen ptype conf ctx cid now m = (none, seen) := by
  unfold processMatch
  simp [h]

theorem processMatch_clean_none (seen : List String) (ptype : String) (conf : Rat)
    (ctx cid : String) (now : Nat) (m : String) (h : _clean_ioc ptype (pyStrip m) = none) :
    (processMatch seen ptype conf ctx cid now m).1 = none := by
  unfold processMatch
  by_cases hm : pyLower (pyStrip m) ∈ seen <;> simp [hm, h]

theorem runMatches_mono (ptype : String) (conf : Rat) (ctx cid : String) (now : Nat) :
    ∀ (ms : List String) (seen : List String),
      seen ⊆ (runMatches ptype conf ctx cid now ms seen).2 := by
  intro ms
  induction ms with
  | nil => intro seen; simp [runMatches]
  | cons m ms ih =>
    intro seen
    rw [runMatches]
    exact (processMatch_mono seen ptype conf ctx cid now m).trans (ih _)

theorem runMatches_key_mem (ptype : String) (conf : Rat) (ctx cid : String) (now : Nat) :
    ∀ (ms : List String) (seen : List String) (m : String), m ∈ ms →
      pyLower (pyStrip m) ∈ (runMatches ptype conf ctx cid now ms seen).2 := by
  intro ms
  induction ms with
  | nil => intro seen m h; simp at h
  | cons m' ms ih =>
    intro seen m h
    rw [runMatches]
    rcases List.mem_cons.mp h with h | h
    · subst h
      exact runMatches_mono ptype conf ctx cid now ms _
        (processMatch_key_mem seen ptype conf ctx cid now m)
    · exact ih _ m h

theorem runMatches_noop (ptype : String) (conf : Rat) (ctx cid : String) (now : Nat) :
    ∀ (ms : List String) (seen : List String), (∀ m ∈ ms, pyLower (pyStrip m) ∈ seen) →
      runMatches ptype conf ctx cid now ms seen = ([], seen) := by
  intro ms
  induction ms with
  | nil => intro seen _; rfl
  | cons m ms ih =>
    intro seen h
    rw [runMatches, processMatch_skip seen ptype conf ctx cid now m (h m (by simp))]
    rw [ih seen (fun x hx => h x (List.mem_cons_of_mem m hx))]
    rfl

theorem runPatterns_mono (ctx cid : String) (now : Nat) (text : String) :
    ∀ (ps : List PatternSpec) (seen : List String),
      seen ⊆ (runPatterns ctx cid now text ps seen).2 := by
  intro ps
  induction ps with
  | nil => intro seen; simp [runPatterns]
  | cons p ps ih =>
    intro seen
    rw [runPatterns]
    exact (runMatches_mono p.ptype p.confidence ctx cid now _ seen).trans (ih _)

theorem runPatterns_key_mem (ctx cid : String) (now : Nat) (text : String) :
    ∀ (ps : List PatternSpec) (seen : List String) (p : PatternSpec) (m : String),
      p ∈ ps → m ∈ findall p.regex text →
      pyLower (pyStrip m) ∈ (runPatterns ctx cid now text ps seen).2 := by
  intro ps
  induction ps with
  | nil => intro seen p m h; simp at h
  | cons p' ps ih =>
    intro seen p m hp hm
    rw [runPatterns]
    rcases List.mem_cons.mp hp with h | h
    · subst h
      exact runPatterns_mono ctx cid now text ps _
        (runMatches_key_mem p.ptype p.confidence ctx cid now _ seen m hm)
    · exact ih _ p m h hm

theorem runPatterns_noop (ctx cid : String) (now : Nat) (text : String) :
    ∀ (ps : List PatternSpec) (seen : List String),
      (∀ p ∈ ps, ∀ m ∈ findall p.regex text, pyLower (pyStrip m) ∈ seen) →
      runPatterns ctx cid now text ps seen = ([], seen) := by
  intro ps
  induction ps with
  | nil => intro seen _; rfl
  | cons p ps ih =>
    intro seen h
    rw [runPatterns,
      runMatches_noop p.ptype p.confidence ctx cid now _ seen (h p (by simp))]
    rw [ih seen (fun q hq m hm => h q (List.mem_cons_of_mem p hq) m hm)]
    rfl

/-- Claim C5 counterexample: the dedup key is the lower-cased **raw** match
(computed before `_clean_ioc` normalization), so the raw forms
`+919876543210` and `9876543210` have different dedup keys, and feeding
them to one engine yields two `ExtractedIOC`s for the same phone value,
not one. -/
theorem c5_counterexample :
    (((_extract_iocs [] "+919876543210" "ctx" "c1" 0).1 ++
      (_extract_iocs (_extract_iocs [] "+919876543210" "ctx" "c1" 0).2
        "9876543210" "ctx" "c2" 1).1).filter
      (fun i => i.ioc_type == "phone" && i.value == "+919876543210")).length = 2 ∧
    pyLower "+919876543210" ≠ pyLower "9876543210" := by
  decide

/-- Claim C5 (amended): deduplication keys on the lower-cased raw matched
text, not the normalized value: extracting the same text a second time (in
any conversation, with any context) yields no IOCs and leaves the dedup
state unchanged; but the raw forms `+919876543210` and `9876543210` are
distinct dedup keys, and both normalize to the phone value
`+919876543210`, which is therefore reported twice by one engine. -/
theorem c5_dedup_on_raw_match (seen : List String) (text context context' cid cid' : String)
    (now now' : Nat) :
    _extract_iocs (_extract_iocs seen text context cid now).2 text context' cid' now' =
      ([], (_extract_iocs seen text context cid now).2) ∧
    (((_extract_iocs [] "+919876543210" "ctx" "c1" 0).1 ++
      (_extract_iocs (_extract_iocs [] "+919876543210" "ctx" "c1" 0).2
        "9876543210" "ctx" "c2" 1).1).map ExtractedIOC.value).count "+919876543210" = 2 := by
  constructor
  · apply runPatterns_noop
    intro p hp m hm
    exact runPatterns_key_mem context cid now text PATTERNS seen p m hp hm
  · decide

/-- Claim C5 witness: the same-text-twice part of the amended claim at a
concrete input. -/
theorem c5_witness :
    _extract_iocs (_extract_iocs [] "pay +919876543210" "c" "c1" 0).2
      "pay +919876543210" "c" "c2" 1 =
    ([], (_extract_iocs [] "pay +919876543210" "c" "c1" 0).2) :=
  (c5_dedup_on_raw_match [] "pay +919876543210" "c" "c" "c1" "c2" 0 1).1

/-- Claim C10: in `_extract_iocs` the dedup key of a raw match is recorded
before normalization/validation: (i) after processing, the key of every
raw match of every pattern is in the seen-set; (ii) a newly seen raw match
whose cleaning fails produces no `ExtractedIOC` (but its key is still
recorded, by (i)); (iii) a raw match whose key is already seen is silently
dropped, leaving the state unchanged; (iv) the seen-set only ever grows,
so this persists for the engine's lifetime; (v) concretely,
`09876543210` (an 11-digit phone-pattern match whose normalization fails)
yields no IOC on first sight, its key is recorded, and a second text
containing it again yields no IOC. -/
theorem c10_dedup_records_raw_before_validation :
    (∀ (seen : List String) (ptype : String) (conf : Rat) (ctx cid : String) (now : Nat)
       (m : String),
      pyLower (pyStrip m) ∈ (processMatch seen ptype conf ctx cid now m).2) ∧
    (∀ (seen : List String) (ptype : String) (conf : Rat) (ctx cid : String) (now : Nat)
       (m : String), _clean_ioc ptype (pyStrip m) = none →
      (processMatch seen ptype conf ctx cid now m).1 = none) ∧
    (∀ (seen : List String) (ptype : String) (conf : Rat) (ctx cid : String) (now : Nat)
       (m : String), pyLower (pyStrip m) ∈ seen →
      processMatch seen ptype conf ctx cid now m = (none, seen)) ∧
    (∀ (seen : List String) (text ctx cid : String) (now : Nat),
      seen ⊆ (_extract_iocs seen text ctx cid now).2) ∧
    (∀ (seen : List String) (text ctx cid : String) (now : Nat) (p : PatternSpec) (m : String),
      p ∈ PATTERNS → m ∈ findall p.regex text →
      pyLower (pyStrip m) ∈ (_extract_iocs seen text ctx cid now).2) ∧
    (_extract_iocs [] "09876543210" "c" "c1" 0 = ([], ["09876543210"]) ∧
     _extract_iocs ["09876543210"] "call 09876543210" "c" "c2" 1 =
       ([], ["09876543210"])) := by
  refine ⟨processMatch_key_mem, processMatch_clean_none, processMatch_skip, ?_, ?_, ?_⟩
  · intro seen text ctx cid now
    exact runPatterns_mono ctx cid now text PATTERNS seen
  · intro seen text ctx cid now p m hp hm
    exact runPatterns_key_mem ctx cid now text PATTERNS seen p m hp hm
  · constructor <;> decide

/-- Claim C10 witness: the parts of the theorem with hypotheses,
instantiated at `09876543210` (a phone-pattern match whose cleaning
fails). -/
theorem c10_witness :
    (processMatch [] "phone" (mkRat 9 10) "c" "c1" 0 "09876543210").1 = none ∧
    processMatch ["09876543210"] "phone" (mkRat 9 10) "c" "c1" 0 "09876543210" =
      (none, ["09876543210"]) ∧
    pyLower (pyStrip "09876543210") ∈
      (_extract_iocs [] "09876543210" "c" "c1" 0).2 :=
  ⟨c10_dedup_records_raw_before_validation.2.1 [] "phone" (mkRat 9 10) "c" "c1" 0 "09876543210"
      (by decide),
   c10_dedup_records_raw_before_validation.2.2.1 ["09876543210"] "phone" (mkRat 9 10) "c" "c1" 0
      "09876543210" (by decide),
   c10_dedup_records_raw_before_validation.2.2.2.2.1 [] "09876543210" "c" "c1" 0
      (PATTERNS.get ⟨0, by decide⟩) "09876543210" (List.get_mem PATTERNS 0 (by decide))
      (by decide)⟩

/-! ## brains/reflex_brain.py

Float confidences/weights are modelled as exact rationals.  `Rat.add` and
`Rat.mul` are `@[irreducible]` in the library, so the (mathematically
equal) explicitly-normalizing forms below are used, which proofs can
evaluate. -/

/-- Exact rational addition (equal to `Rat.add`). -/
def qadd (a b : Rat) : Rat := mkRat (a.num * b.den + b.num * a.den) (a.den * b.den)

/-- Exact rational multiplication (equal to `Rat.mul`). -/
def qmul (a b : Rat) : Rat := mkRat (a.num * b.num) (a.den * b.den)

/-- Python `min` on two rationals. -/
def qmin (a b : Rat) : Rat := if Rat.blt a b then a else b

/-- Python `max` on two rationals. -/
def qmax (a b : Rat) : Rat := if Rat.blt a b then b else a

/-- A case-insensitive literal (the reflex patterns are compiled with
`re.IGNORECASE`); the matched text keeps the subject's original case. -/
def litCI (s : String) : RE :=
  rcat (s.data.map (fun a => RE.cls (fun c => c.toLower = a.toLower)))

/-- Ordered alternation of a list of alternatives (first preferred). -/
def altList : List RE → RE
  | [] => RE.eps
  | [r] => r
  | r :: rs => RE.alt r (altList rs)

/-- `\b(w1|w2|...)\b`, the shape of every reflex pattern. -/
def kwAlt (ws : List RE) : RE := rcat [RE.wordB, altList ws, RE.wordB]

/-- `\b(urgent|immediate|act now|limited time|expires?|deadline|hurry|asap|emergency)\b`. -/
def urgent_action_re : RE :=
  kwAlt [litCI "urgent", litCI "immediate", litCI "act now", litCI "limited time",
         RE.seq (litCI "expire") (ropt (litCI "s")), litCI "deadline", litCI "hurry",
         litCI "asap", litCI "emergency"]

/-- `\b(lawsuit|arrest|warrant|police|legal action|court|attorney|prosecuted|federal|crime)\b`. -/
def threat_legal_re : RE :=
  kwAlt [litCI "lawsuit", litCI "arrest", litCI "warrant", litCI "police",
         litCI "legal action", litCI "court", litCI "attorney", litCI "prosecuted",
         litCI "federal", litCI "crime"]

/-- `\b(account suspended|frozen|blocked|closure|terminate service|cancelled|overdue)\b`. -/
def threat_financial_re : RE :=
  kwAlt [litCI "account suspended", litCI "frozen", litCI "blocked", litCI "closure",
         litCI "terminate service", litCI "cancelled", litCI "overdue"]

/-- `\b(pay|payment|send money|transfer|wire|deposit|fee|fine|penalty|dues)\b`. -/
def request_payment_re : RE :=
  kwAlt [litCI "pay", litCI "payment", litCI "send money", litCI "transfer",
         litCI "wire", litCI "deposit", litCI "fee", litCI "fine", litCI "penalty",
         litCI "dues"]

/-- `\b(gift card|itunes|amazon card|google play|steam card|vanilla|reloadit)\b`. -/
def request_giftcard_re : RE :=
  kwAlt [litCI "gift card", litCI "itunes", litCI "amazon card", litCI "google play",
         litCI "steam card", litCI "vanilla", litCI "reloadit"]

/-- `\b(bitcoin|btc|crypto|wallet|blockchain|ethereum|eth|usdt|tether)\b`. -/
def request_crypto_re : RE :=
  kwAlt [litCI "bitcoin", litCI "btc", litCI "crypto", litCI "wallet",
         litCI "blockchain", litCI "ethereum", litCI "eth", litCI "usdt",
         litCI "tether"]

/-- `\b(account number|routing|iban|swift|credit card|cvv|pin|password|login|ssn|social security)\b`. -/
def request_bank_info_re : RE :=
  kwAlt [litCI "account number", litCI "routing", litCI "iban", litCI "swift",
         litCI "credit card", litCI "cvv", litCI "pin", litCI "password",
         litCI "login", litCI "ssn", litCI "social security"]

/-- `\b(anydesk|teamviewer|logmein|remote access|screen share|connect|take control)\b`. -/
def remote_access_re : RE :=
  kwAlt [litCI "anydesk", litCI "teamviewer", litCI "logmein", litCI "remote access",
         litCI "screen share", litCI "connect", litCI "take control"]

/-- `\b(download|install|click link|visit|go to|open|run|execute|setup)\b`. -/
def software_install_re : RE :=
  kwAlt [litCI "download", litCI "install", litCI "click link", litCI "visit",
         litCI "go to", litCI "open", litCI "run", litCI "execute", litCI "setup"]

/-- `\b(verify|confirm|validate|update your info|security check|authentication|kyc)\b`. -/
def verify_identity_re : RE :=
  kwAlt [litCI "verify", litCI "confirm", litCI "validate", litCI "update your info",
         litCI "security check", litCI "authentication", litCI "kyc"]

/-- `\b(won|winner|prize|lottery|jackpot|inheritance|million|reward|lucky|selected|random)\b`. -/
def prize_win_re : RE :=
  kwAlt [litCI "won", litCI "winner", litCI "prize", litCI "lottery", litCI "jackpot",
         litCI "inheritance", litCI "million", litCI "reward", litCI "lucky",
         litCI "selected", litCI "random"]

/-- `\b(love|dear|honey|baby|sweetheart|beautiful|gorgeous|soulmate|destiny|god sent)\b`. -/
def romance_signal_re : RE :=
  kwAlt [litCI "love", litCI "dear", litCI "honey", litCI "baby", litCI "sweetheart",
         litCI "beautiful", litCI "gorgeous", litCI "soulmate", litCI "destiny",
         litCI "god sent"]

/-- `\b(microsoft|apple|amazon|netflix|irs|social security|tech support|help desk|service center)\b`. -/
def tech_support_claim_re : RE :=
  kwAlt [litCI "microsoft", litCI "apple", litCI "amazon", litCI "netflix",
         litCI "irs", litCI "social security", litCI "tech support",
         litCI "help desk", litCI "service center"]

/-- `\b(virus|malware|hacked|infected|security breach|unauthorized|suspicious activity)\b`. -/
def virus_warning_re : RE :=
  kwAlt [litCI "virus", litCI "malware", litCI "hacked", litCI "infected",
         litCI "security breach", litCI "unauthorized", litCI "suspicious activity"]

/-- One entry of `ReflexBrain.PATTERNS` / `_compiled_patterns`. -/
structure ReflexPattern where
  rname : String
  weight : Rat
  category : String
  regex : RE

/-- `ReflexBrain.PATTERNS` in source (dict insertion) order. -/
def REFLEX_PATTERNS : List ReflexPattern :=
  [⟨"urgent_action", mkRat 7 10, "pressure_tactic", urgent_action_re⟩,
   ⟨"threat_legal", mkRat 8 10, "threat", threat_legal_re⟩,
   ⟨"threat_financial", mkRat 75 100, "threat", threat_financial_re⟩,
   ⟨"request_payment", mkRat 6 10, "financial", request_payment_re⟩,
   ⟨"request_giftcard", mkRat 9 10, "financial", request_giftcard_re⟩,
   ⟨"request_crypto", mkRat 85 100, "financial", request_crypto_re⟩,
   ⟨"request_bank_info", mkRat 95 100, "financial", request_bank_info_re⟩,
   ⟨"remote_access", mkRat 9 10, "technical", remote_access_re⟩,
   ⟨"software_install", mkRat 6 10, "technical", software_install_re⟩,
   ⟨"verify_identity", mkRat 5 10, "phishing", verify_identity_re⟩,
   ⟨"prize_win", mkRat 8 10, "lottery", prize_win_re⟩,
   ⟨"romance_signal", mkRat 4 10, "romance", romance_signal_re⟩,
   ⟨"tech_support_claim", mkRat 6 10, "impersonation", tech_support_claim_re⟩,
   ⟨"virus_warning", mkRat 7 10, "technical", virus_warning_re⟩]

/-- `PatternMatch` dataclass. -/
structure PatternMatch where
  pattern_name : String
  confidence : Rat
  matched_text : String
  category : String
  suggested_action : String
deriving DecidableEq, Repr

/-- `ReflexBrain._get_suggested_action`. -/
def _get_suggested_action (category : String) : String :=
  if category = "financial" then "extract_payment_details"
  else if category = "technical" then "gather_remote_access_info"
  else if category = "threat" then "document_threat_language"
  else if category = "pressure_tactic" then "delay_and_extract"
  else if category = "lottery" then "confirm_prize_structure"
  else if category = "romance" then "build_trust_extract_background"
  else "continue_conversation"

/-- `ReflexBrain._has_multiple_indicators` (source loops with an early exit
at 3, same result). -/
def _has_multiple_indicators (message : String) : Bool :=
  decide (3 ≤ REFLEX_PATTERNS.countP (fun p => hasMatch p.regex message))

/-- Stable insertion into a list sorted by descending confidence: the new
element (originally earlier) goes before existing elements of equal
confidence. -/
def insertByConfDesc (m : PatternMatch) : List PatternMatch → List PatternMatch
  | [] => [m]
  | x :: xs =>
    if Rat.blt m.confidence x.confidence then x :: insertByConfDesc m xs
    else m :: x :: xs

/-- Python `list.sort(key=confidence, reverse=True)` — a stable descending
sort. -/
def sortByConfDesc : List PatternMatch → List PatternMatch
  | [] => []
  | x :: xs => insertByConfDesc x (sortByConfDesc xs)

/-- `ReflexBrain.analyze`. -/
def analyze (message : String) : List PatternMatch :=
  let found_matches := REFLEX_PATTERNS.filterMap (fun p =>
    match research p.regex none message.data with
    | some found =>
      let confidence := p.weight
      let confidence :=
        if _has_multiple_indicators (pyLower message) then
          qmin (mkRat 1 1) (qadd confidence (mkRat 1 10))
        else confidence
      some { pattern_name := p.rname, confidence := confidence,
             matched_text := found.asString, category := p.category,
             suggested_action := _get_suggested_action p.category }
    | none => none)
  sortByConfDesc found_matches

/-- The `urgency_weights` table of `ReflexBrain.get_urgency_score`
(`dict.get(category, 0.5)`). -/
def urgency_weights (category : String) : Rat :=
  if category = "threat" then mkRat 1 1
  else if category = "financial" then mkRat 9 10
  else if category = "pressure_tactic" then mkRat 8 10
  else if category = "technical" then mkRat 7 10
  else if category = "lottery" then mkRat 5 10
  else if category = "romance" then mkRat 3 10
  else if category = "phishing" then mkRat 6 10
  else if category = "impersonation" then mkRat 6 10
  else mkRat 5 10

/-- `ReflexBrain.get_urgency_score`. -/
def get_urgency_score (message : String) : Rat :=
  match analyze message with
  | [] => mkRat 0 1
  | ms =>
    let max_urgency := ms.foldl
      (fun acc m => qmax acc (qmul m.confidence (urgency_weights m.category))) (mkRat 0 1)
    qmin (mkRat 1 1) max_urgency

/-- Whether `pat` occurs as a contiguous substring (Python `in`). -/
def containsSub : List Char → List Char → Bool
  | [], pat => pat.isEmpty
  | c :: t, pat => pat.isPrefixOf (c :: t) || containsSub t pat

/-- Python `str.replace(pat, repl)` (all non-overlapping occurrences, left
to right); `fuel` starts at the subject length.  Only called with nonempty
`pat`. -/
def replaceAllAux (pat repl : List Char) : Nat → List Char → List Char
  | _, [] => []
  | 0, s => s
  | fuel + 1, c :: t =>
    if pat ≠ [] ∧ pat.isPrefixOf (c :: t) then
      repl ++ replaceAllAux pat repl fuel ((c :: t).drop pat.length)
    else c :: replaceAllAux pat repl fuel t

/-- Python `str.replace(pat, repl, 1)`: first occurrence only. -/
def replaceFirst (pat repl : List Char) : List Char → List Char
  | [] => []
  | c :: t =>
    if pat ≠ [] ∧ pat.isPrefixOf (c :: t) then repl ++ (c :: t).drop pat.length
    else c :: replaceFirst pat repl t

/-- Python `str.title()`: uppercase each letter that follows a non-letter,
lowercase the others. -/
def titleAux : Bool → List Char → List Char
  | _, [] => []
  | prevAlpha, c :: t =>
    (if c.isAlpha then (if prevAlpha then c.toLower else c.toUpper) else c) ::
      titleAux c.isAlpha t

/-- `ReflexBrain._personalize_response`.  The persona context dict is used
only through its `age` key (default 70 supplied by the caller). -/
def _personalize_response (template : String) (age : Nat) (ms : List PatternMatch) :
    String :=
  let response := template
  let response :=
    if containsSub response.data "\x7bcompany\x7d".data then
      let company :=
        match ms.find? (fun m => m.category == "impersonation") with
        | some m => (titleAux false m.matched_text.data).asString
        | none => "the company"
      ⟨replaceAllAux "\x7bcompany\x7d".data company.data response.data.length response.data⟩
    else response
  if age > 65 ∧ ¬ containsSub response.data "...".data then
    ⟨replaceFirst ".".data "... ".data response.data⟩
  else response

/-- `ReflexBrain.RESPONSES` (template dict; `none` = key absent). -/
def RESPONSES (category : String) : Option (List String) :=
  if category = "pressure_tactic" then some
    ["Oh my, that sounds serious. I\x27m not very good with computers though, can you explain slowly?",
     "I\x27m a bit confused. My grandson usually helps me with these things.",
     "That sounds scary. Let me write this down. Can you repeat that?"]
  else if category = "threat" then some
    ["I don\x27t understand, I\x27ve always paid my bills on time. There must be a mistake?",
     "My son is a lawyer, should I call him about this?",
     "This is very worrying. I\x27m an old person, I don\x27t want any trouble."]
  else if category = "financial" then some
    ["I don\x27t have much money, just my pension. How much are we talking about?",
     "I usually pay cash for everything. I don\x27t trust these online things.",
     "My bank is just down the street, should I go there?"]
  else if category = "technical" then some
    ["I\x27m not good with technology. My phone is very old.",
     "Can you wait? I need to find my glasses to see the screen properly.",
     "I don\x27t know how to do that. Can you guide me step by step?"]
  else if category = "lottery" then some
    ["Oh! I never win anything. Are you sure you have the right person?",
     "I don\x27t remember entering any lottery. I don\x27t gamble, you know.",
     "This sounds too good to be true. Is this real?"]
  else if category = "romance" then some
    ["You are very kind. I don\x27t get many compliments these days.",
     "That\x27s very sweet. Tell me more about yourself.",
     "You sound like a nice person. Where are you from?"]
  else if category = "phishing" then some
    ["I don\x27t like giving personal information over the phone.",
     "Can I call you back on an official number? I want to be safe.",
     "My children told me to be careful about sharing my details."]
  else if category = "impersonation" then some
    ["I didn\x27t know \x7bcompany\x7d called people directly. Is this normal?",
     "Can I verify this with \x7bcompany\x7d directly? I want to be careful.",
     "I didn\x27t request any support. Why are you calling me?"]
  else none

/-- The metadata dict `ReflexBrain.generate_response` returns in its
`used = True` case (`used`/`brain` keys made implicit by the type). -/
structure RespMeta where
  brain : String
  pattern : String
  confidence : Rat
  category : String
  action : String
deriving DecidableEq, Repr

/-- `ReflexBrain.generate_response`.  `random.choice` is the parameter
`choice`; `none` models the `(None, {"used": False})` returns. -/
def generate_response (ms : List PatternMatch) (age : Nat)
    (choice : List String → String) : Option (String × RespMeta) :=
  match ms with
  | [] => none
  | top :: _ =>
    match RESPONSES top.category with
    | some templates =>
      let template := choice templates
      let response := _personalize_response template age ms
      some (response,
        { brain := "reflex", pattern := top.pattern_name, confidence := top.confidence,
          category := top.category, action := top.suggested_action })
    | none => none

/-! ## brains/router.py -/

/-- `RoutingDecision` dataclass. -/
structure RoutingDecision where
  brain : String
  confidence : Rat
  reason : String
  latency_budget_ms : Nat
deriving DecidableEq, Repr

/-- Python `len(message.split())`: split on whitespace runs, dropping
empties. -/
def splitWSAux : List Char → List Char → List (List Char)
  | [], acc => if acc.isEmpty then [] else [acc.reverse]
  | c :: t, acc =>
    if c.isWhitespace then
      if acc.isEmpty then splitWSAux t [] else acc.reverse :: splitWSAux t []
    else splitWSAux t (c :: acc)

/-- The word count used by `_decide_brain`. -/
def word_count (s : String) : Nat := (splitWSAux s.data []).length

/-- Python `f"{x:.2f}"` for the urgency scores occurring here (two-decimal
rounding; no claim inspects this string, so the last-digit tie-breaking
subtleties of float formatting are immaterial). -/
def fmt2 (q : Rat) : String :=
  let n := (qadd (qmul q (mkRat 100 1)) (mkRat 1 2)).floor
  let fr := (n % 100).toNat
  toString (n / 100) ++ "." ++ (if fr < 10 then "0" else "") ++ toString fr

/-- `BrainRouter._decide_brain` (thresholds: `urgency_threshold = 0.7`,
`complexity_threshold = 50`). -/
def _decide_brain (message : String) (current : State) : RoutingDecision :=
  let urgency := get_urgency_score message
  let wc := word_count message
  if current = State.extraction ∨ current = State.suspicion_arousal then
    { brain := "cortex", confidence := mkRat 9 10,
      reason := "Active extraction phase", latency_budget_ms := 5000 }
  else if Rat.blt (mkRat 7 10) urgency then
    { brain := "cortex", confidence := urgency,
      reason := "High urgency score: " ++ fmt2 urgency, latency_budget_ms := 4000 }
  else if 50 < wc then
    { brain := "cortex", confidence := mkRat 6 10,
      reason := "Complex message: " ++ toString wc ++ " words", latency_budget_ms := 4000 }
  else
    { brain := "reflex", confidence := mkRat 8 10,
      reason := "Low complexity, using fast path", latency_budget_ms := 100 }

/-- `BrainRouter._log_response` for a reflex response: a `financial`
category triggers `transition` to the current state (a self-loop attempt);
for cortex metadata (`brain ≠ "reflex"`) nothing happens. -/
def _log_response (sm : ConversationStateMachine) (md : RespMeta) (now : Nat) :
    ConversationStateMachine :=
  if md.brain = "reflex" ∧ md.category = "financial" then
    (transition sm (get_current_state sm) now).2.1
  else sm

/-- `BrainRouter.route`.  External collaborators are parameters:
`choice` models `random.choice` in the reflex responder, and
`cortex_response` the opaque LLM-backed `cortex.generate_response` text
(whose metadata has `brain = "cortex"`, so `_log_response` leaves the
state machine unchanged on that path).  Returns the response text and the
state machine afterwards. -/
def route (message : String) (sm : ConversationStateMachine) (age : Nat)
    (choice : List String → String) (cortex_response : String) (now : Nat) :
    String × ConversationStateMachine :=
  let decision := _decide_brain message (get_current_state sm)
  if decision.brain = "reflex" then
    match generate_response (analyze message) age choice with
    | some (response, md) =>
      if Rat.blt (mkRat 8 10) md.confidence then
        (cortex_response, sm)
      else
        (response, _log_response sm md now)
    | none => ("I\x27m not sure how to respond to that.", sm)
  else
    (cortex_response, sm)

/-- Claim C6: whenever the current phase is `Extraction` or
`SuspicionArousal`, `_decide_brain` returns the cortex (escalate) decision
with reason `"Active extraction phase"`, for every message — regardless of
content, urgency score or word count. -/
theorem c6_extraction_phase_escalates (message : String) (st : State)
    (h : st = State.extraction ∨ st = State.suspicion_arousal) :
    _decide_brain message st =
      { brain := "cortex", confidence := mkRat 9 10,
        reason := "Active extraction phase", latency_budget_ms := 5000 } := by
  unfold _decide_brain
  rw [if_pos h]

/-- Claim C6 witness: concrete messages in both phases. -/
theorem c6_witness :
    _decide_brain "hello" State.extraction =
      { brain := "cortex", confidence := mkRat 9 10,
        reason := "Active extraction phase", latency_budget_ms := 5000 } ∧
    _decide_brain "URGENT: send gift card now!!" State.suspicion_arousal =
      { brain := "cortex", confidence := mkRat 9 10,
        reason := "Active extraction phase", latency_budget_ms := 5000 } :=
  ⟨c6_extraction_phase_escalates "hello" State.extraction (Or.inl rfl),
   c6_extraction_phase_escalates "URGENT: send gift card now!!" State.suspicion_arousal
     (Or.inr rfl)⟩

/-- Claim C7: when the router initially chooses the reflex path and the
reflex responder produces a usable match (`used = True`), then: if its
confidence exceeds 0.8 the decision is upgraded post hoc and the message
is answered by the cortex path; if the confidence is at most 0.8 the
reflex response is returned directly (with its reflex-side logging
effect). -/
theorem c7_high_confidence_upgrade (message : String) (sm : ConversationStateMachine)
    (age : Nat) (choice : List String → String) (cortex_response : String) (now : Nat)
    (response : String) (md : RespMeta)
    (hdec : (_decide_brain message (get_current_state sm)).brain = "reflex")
    (hgen : generate_response (analyze message) age choice = some (response, md)) :
    (Rat.blt (mkRat 8 10) md.confidence = true →
      route message sm age choice cortex_response now = (cortex_response, sm)) ∧
    (Rat.blt (mkRat 8 10) md.confidence = false →
      route message sm age choice cortex_response now = (response, _log_response sm md now)) := by
  constructor
  · intro hconf
    unfold route
    rw [if_pos hdec, hgen]
    simp [hconf]
  · intro hconf
    unfold route
    rw [if_pos hdec, hgen]
    simp [hconf]

/-- Claim C7 witness: a concrete message whose top reflex match has
confidence 0.9 (> 0.8) is answered by the cortex path, and one with
confidence 0.4 (≤ 0.8) gets the reflex response directly. -/
theorem c7_witness :
    route "you won a prize, click link to verify" (initMachine "c" 20) 70
      (fun l => l.headD "") "CORTEX-ANSWER" 0 = ("CORTEX-ANSWER", initMachine "c" 20) ∧
    route "hello dear" (initMachine "c" 20) 70 (fun l => l.headD "") "CORTEX-ANSWER" 0 =
      ("You are very kind...  I don\x27t get many compliments these days.",
       initMachine "c" 20) := by
  constructor
  · exact (c7_high_confidence_upgrade "you won a prize, click link to verify"
      (initMachine "c" 20) 70 (fun l => l.headD "") "CORTEX-ANSWER" 0
      "Oh! I never win anything...  Are you sure you have the right person?"
      { brain := "reflex", pattern := "prize_win", confidence := mkRat 9 10,
        category := "lottery", action := "confirm_prize_structure" }
      (by decide) (by decide)).1 (by decide)
  · rw [(c7_high_confidence_upgrade "hello dear" (initMachine "c" 20) 70
      (fun l => l.headD "") "CORTEX-ANSWER" 0
      "You are very kind...  I don\x27t get many compliments these days."
      { brain := "reflex", pattern := "romance_signal", confidence := mkRat 4 10,
        category := "romance", action := "build_trust_extract_background" }
      (by decide) (by decide)).2 (by decide)]
    rfl

/-! ## security/constitutional_ai.py -/

/-- `ViolationType` enum. -/
inductive ViolationType where
  | initiation
  | harmful_content
  | legal_violation
  | privacy_breach
  | deception_escalation
deriving DecidableEq, Repr

/-- `ConstitutionalCheck` dataclass. -/
structure ConstitutionalCheck where
  passed : Bool
  violation_type : Option ViolationType
  reason : String
  severity : String
deriving DecidableEq, Repr

/-- `ConstitutionalAI` object state (only the violation history matters to
the claims; config fields are not read by `validate_incoming_source`). -/
structure ConstitutionalAI where
  violation_history : List ConstitutionalCheck
deriving DecidableEq, Repr

/-- The `allowed_patterns` list of `validate_incoming_source` (all are
regex-literals). -/
def allowed_patterns : List String :=
  ["incoming_call", "incoming_sms", "incoming_email", "incoming_chat", "test_", "mock_"]

/-- `ConstitutionalAI.validate_incoming_source`:
`re.search(pattern, source, re.IGNORECASE)` over literal patterns is
case-insensitive substring containment.  On rejection a critical
`INITIATION` violation is appended to the history (and logged). -/
def validate_incoming_source (st : ConstitutionalAI) (source : String) :
    Bool × ConstitutionalAI :=
  if allowed_patterns.any (fun p => containsSub (pyLower source).data p.data) then
    (true, st)
  else
    (false,
     { st with violation_history := st.violation_history ++
        [{ passed := false, violation_type := some ViolationType.initiation,
           reason := "System attempted to initiate contact via: " ++ source,
           severity := "critical" }] })

/-- The accepted set as claim C8 words it: sources tagged as inbound, i.e.
the `incoming_*` / `test_` / `mock_` prefix family (case-insensitively). -/
def claimedInboundTag (s : String) : Bool :=
  "incoming_".data.isPrefixOf (pyLower s).data ||
  "test_".data.isPrefixOf (pyLower s).data ||
  "mock_".data.isPrefixOf (pyLower s).data

/-- Claim C8 counterexample: `outbound_test_call` is not in the claimed
inbound tag family (it is an outbound source), yet the code accepts it,
because `re.search` finds `test_` anywhere in the string — so the code
does not accept *exactly* the inbound-tagged sources. -/
theorem c8_counterexample :
    (validate_incoming_source ⟨[]⟩ "outbound_test_call").1 = true ∧
    claimedInboundTag "outbound_test_call" = false := by
  decide

/-- Claim C8 (amended): `validate_incoming_source` accepts exactly the
sources containing one of the six allowed patterns (`incoming_call`,
`incoming_sms`, `incoming_email`, `incoming_chat`, `test_`, `mock_`) as a
case-insensitive substring; acceptance leaves the state unchanged, and
every other source is rejected with a critical-severity `INITIATION`
violation appended to the history.  In particular `outbound_call` is
rejected with a critical violation recorded and `incoming_sms` is
accepted. -/
theorem c8_validate_incoming_source (st : ConstitutionalAI) (source : String) :
    ((validate_incoming_source st source).1 = true ↔
      ∃ p ∈ allowed_patterns, containsSub (pyLower source).data p.data = true) ∧
    ((validate_incoming_source st source).1 = false →
      (validate_incoming_source st source).2.violation_history =
        st.violation_history ++
          [{ passed := false, violation_type := some ViolationType.initiation,
             reason := "System attempted to initiate contact via: " ++ source,
             severity := "critical" }]) ∧
    ((validate_incoming_source st source).1 = true →
      (validate_incoming_source st source).2 = st) ∧
    (validate_incoming_source ⟨[]⟩ "outbound_call" =
      (false, ⟨[{ passed := false, violation_type := some ViolationType.initiation,
                  reason := "System attempted to initiate contact via: outbound_call",
                  severity := "critical" }]⟩)) ∧
    (validate_incoming_source st "incoming_sms").1 = true := by
  refine ⟨?_, ?_, ?_, by decide, ?_⟩
  · unfold validate_incoming_source
    by_cases h : allowed_patterns.any (fun p => containsSub (pyLower source).data p.data)
    · simp only [if_pos h]
      simpa [List.any_eq_true] using h
    · simp only [if_neg h]
      constructor
      · intro hfalse
        exact Bool.noConfusion hfalse
      · intro hex
        exact absurd (List.any_eq_true.mpr hex) h
  · intro hfalse
    unfold validate_incoming_source at hfalse ⊢
    by_cases h : allowed_patterns.any (fun p => containsSub (pyLower source).data p.data)
    · rw [if_pos h] at hfalse
      exact absurd hfalse (by simp)
    · rw [if_neg h]
  · intro htrue
    unfold validate_incoming_source at htrue ⊢
    by_cases h : allowed_patterns.any (fun p => containsSub (pyLower source).data p.data)
    · rw [if_pos h]
    · rw [if_neg h] at htrue
      exact absurd htrue (by simp)
  · unfold validate_incoming_source
    rw [if_pos (by decide)]

/-- Claim C8 witness: the rejection branch at a concrete input — the
violation history grows by one critical `INITIATION` record. -/
theorem c8_witness :
    (validate_incoming_source ⟨[]⟩ "outbound_call").2.violation_history =
      [] ++
        [{ passed := false, violation_type := some ViolationType.initiation,
           reason := "System attempted to initiate contact via: outbound_call",
           severity := "critical" }] :=
  (c8_validate_incoming_source ⟨[]⟩ "outbound_call").2.1 (by decide)

end GhostWire
